import Mathlib

/-!
Verification of the AOS repository's entropy-driven reset / distillation core
against its specification.  Python floats are modelled by exact rationals
(every comparison the code performs is far from any rounding boundary for the
reachable values), machine integers by `Nat`, database rows by lists carried
in an explicit store state, and fallible calls by `Option`.  The SQL
`ORDER BY timestamp` of a query is modelled by a stable insertion sort on
the rational timestamps.
-/

namespace AOS

/-! ## Python primitives: whitespace, strip, slicing -/

/-- The Unicode whitespace set recognised by Python's `str.strip` / regex
`\s` (`str.isspace` characters). -/
def wsCharList : List Char :=
  ['\t', '\n', '\x0b', '\x0c', '\r', '\x1c', '\x1d', '\x1e', '\x1f', ' ',
   '\x85', '\xa0', ' ', ' ', ' ', ' ', ' ',
   ' ', ' ', ' ', ' ', ' ', ' ', ' ',
   ' ', ' ', ' ', ' ', '　']

/-- Python whitespace test (`\s`, `str.isspace`). -/
def pySpace (c : Char) : Bool := wsCharList.contains c

/-- `str.strip()` on a character list. -/
def pyStripList (cs : List Char) : List Char :=
  ((cs.dropWhile pySpace).reverse.dropWhile pySpace).reverse

/-- Python `s.strip()`. -/
def pyStrip (s : String) : String := ⟨pyStripList s.data⟩

/-- Python `s[:n]` (slicing by code points). -/
def takeChars (n : ℕ) (s : String) : String := ⟨s.data.take n⟩

/-! ## Data model -/

/-- One stored log event, with the fields the memory/agent code reads
(`level`, `logger_name`, `message`, `timestamp`, `trace_id`).  `logger_name`
uses `""` for a missing name (Python falsiness), `message` is `Option` since
the column is nullable, timestamps are rational seconds. -/
structure LogEntry where
  level : String
  logger_name : String
  message : Option String
  timestamp : ℚ
  trace_id : String
deriving Repr, DecidableEq

/-- One distilled memory card row (`WisdomItem`): `tags` is the
comma-joined string the code stores. -/
structure WisdomItem where
  id : ℕ
  source_trace_id : String
  title : String
  content : String
  tags : String
deriving Repr, DecidableEq

/-- The LLM summarizer's structured output (`MemoryCard`). -/
structure MemoryCard where
  title : String
  summary : String
  tags : List String
deriving Repr, DecidableEq

/-- The persistent store: log rows and wisdom rows in insertion order, plus
the next wisdom primary key. -/
structure Store where
  logs : List LogEntry
  wisdom : List WisdomItem
  nextWisdomId : ℕ
deriving Repr, DecidableEq

/-- Stable insertion into a timestamp-sorted list. -/
def insertByTimestamp (x : LogEntry) : List LogEntry → List LogEntry
  | [] => [x]
  | y :: ys =>
    if x.timestamp ≤ y.timestamp then x :: y :: ys
    else y :: insertByTimestamp x ys

/-- Stable sort by timestamp (models SQL `ORDER BY timestamp`). -/
def sortByTimestamp : List LogEntry → List LogEntry
  | [] => []
  | x :: xs => insertByTimestamp x (sortByTimestamp xs)

/-- The trace's log history, ordered by timestamp (the query
`select(LogEntry).where(trace_id == tid).order_by(timestamp)`). -/
def tracedLogs (st : Store) (tid : String) : List LogEntry :=
  sortByTimestamp (st.logs.filter (·.trace_id == tid))

/-! ## Entropy service -/

/-- `EntropyService.MAX_TOKENS`. -/
def MAX_TOKENS : ℕ := 128000

/-- `EntropyService.CRITICAL_ANXIETY` (0.8). -/
def CRITICAL_ANXIETY : ℚ := 8/10

/-- `EntropyService.count_tokens` on the fallback path (no tiktoken
encoder): `len(text) // 4`. -/
def count_tokens (text : String) : ℕ := text.length / 4

/-- `EntropyService.calculate_anxiety`: over the first `window_size` entries
(most recent first), ERROR counts 1, WARNING counts 1/2, divided by the
window's actual size and clamped to 1; `0` for an empty list. -/
def calculate_anxiety (logs : List LogEntry) (window_size : ℕ := 10) : ℚ :=
  if logs = [] then 0
  else
    let recent := logs.take window_size
    let score : ℚ :=
      recent.foldl
        (fun acc log =>
          if log.level = "ERROR" then acc + 1
          else if log.level = "WARNING" then acc + 1/2
          else acc) 0
    min (score / recent.length) 1

/-- `EntropyService.should_reset`: token overflow (`current_tokens >
MAX_TOKENS * 0.9`) or panic (`calculate_anxiety ≥ CRITICAL_ANXIETY`).
(The float product `128000 * 0.9` lies strictly between 115200 and 115201,
so on integer token counts the comparison agrees with the exact one.) -/
def should_reset (current_tokens : ℕ) (recent_logs : List LogEntry) : Bool :=
  if (current_tokens : ℚ) > (MAX_TOKENS : ℚ) * (9/10) then true
  else if calculate_anxiety recent_logs ≥ CRITICAL_ANXIETY then true
  else false

/-! ## Heuristic distillation (OdysseusService.distill_trace fallback path) -/

/-- Python string `<`: lexicographic on code points. -/
def listCharLt : List Char → List Char → Bool
  | [], [] => false
  | [], _ :: _ => true
  | _ :: _, [] => false
  | a :: as, b :: bs =>
    if a.val < b.val then true
    else if b.val < a.val then false
    else listCharLt as bs

/-- Python `s < t` on strings. -/
def strLtPy (s t : String) : Bool := listCharLt s.data t.data

/-- A set of strings (first occurrence kept last, order irrelevant once
sorted). -/
def dedupStrings : List String → List String
  | [] => []
  | x :: xs => if x ∈ xs then dedupStrings xs else x :: dedupStrings xs

/-- Ascending insertion by Python string order. -/
def insertStr (x : String) : List String → List String
  | [] => [x]
  | y :: ys => if strLtPy y x then y :: insertStr x ys else x :: y :: ys

/-- Python `sorted` on strings. -/
def sortStrings : List String → List String
  | [] => []
  | x :: xs => insertStr x (sortStrings xs)

/-- `sorted({log.logger_name for log in logs if log.logger_name})[0]`, or
`"unknown"` when no event has a non-empty logger name. -/
def primary_logger (logs : List LogEntry) : String :=
  match sortStrings (dedupStrings (logs.filterMap
      (fun l => if l.logger_name = "" then none else some l.logger_name))) with
  | [] => "unknown"
  | n :: _ => n

/-- Follows the spec's words for C6 (not the source): "{first logger name}",
the logger name of the chronologically first event. -/
def spec_first_logger_name (logs : List LogEntry) : String :=
  ((logs.head?).map (·.logger_name)).getD "unknown"

/-- `sum(1 for log in logs if log.level == "ERROR")`. -/
def error_count (logs : List LogEntry) : ℕ := logs.countP (·.level == "ERROR")

/-- `(logs[-1].message or "").strip()`. -/
def last_message_stripped (logs : List LogEntry) : String :=
  pyStrip (((logs.getLast?).map (fun l => l.message.getD "")).getD "")

/-- `(logs[-1].timestamp - logs[0].timestamp).total_seconds() if len(logs) > 1
else 0.0`. -/
def duration_s (logs : List LogEntry) : ℚ :=
  if 1 < logs.length then
    ((logs.getLast?.map (·.timestamp)).getD 0) - ((logs.head?.map (·.timestamp)).getD 0)
  else 0

/-- Floor of a rational as an integer (computable). -/
def ratFloor (q : ℚ) : ℤ := Int.fdiv q.num q.den

/-- Round half to even (Python float formatting's rounding on the exact
value). -/
def roundHalfEven (q : ℚ) : ℤ :=
  let f := ratFloor q
  let r := q - f
  if r < 1/2 then f else if 1/2 < r then f + 1 else if f % 2 = 0 then f else f + 1

/-- Two decimal digits with leading zero. -/
def pad2 (n : ℕ) : String := if n < 10 then "0" ++ toString n else toString n

/-- Python `f"{q:.2f}"` on the exact rational value. -/
def fmtFixed2 (q : ℚ) : String :=
  let c := roundHalfEven (q * 100)
  if c < 0 then
    "-" ++ toString ((-c).toNat / 100) ++ "." ++ pad2 ((-c).toNat % 100)
  else toString (c.toNat / 100) ++ "." ++ pad2 (c.toNat % 100)

/-- Title/content/tags produced by the heuristic branch of
`OdysseusService.distill_trace` (odysseus.py lines 84–110). -/
structure DistilledCard where
  title : String
  content : String
  tags : String
deriving Repr, DecidableEq

/-- The heuristic summarization of a non-empty, time-ordered log list. -/
def heuristic_card (trace_id : String) (logs : List LogEntry) : DistilledCard :=
  if 0 < error_count logs then
    { title := "Failure Pattern Detected in " ++ primary_logger logs
      content := "Trace " ++ takeChars 8 trace_id ++ " encountered "
        ++ toString (error_count logs) ++ " errors. Primary source: "
        ++ takeChars 120 (last_message_stripped logs)
      tags := "bug,error,failure" }
  else
    { title := "Successful Execution: " ++ primary_logger logs
      content := "Completed task in " ++ fmtFixed2 (duration_s logs)
        ++ "s. Steps involved: " ++ toString logs.length ++ " entries."
      tags := "success,performance" }

/-! ## OdysseusService.distill_trace -/

/-- `select(WisdomItem).where(source_trace_id == tid).first()` in insertion
order. -/
def findWisdomByTrace (ws : List WisdomItem) (tid : String) : Option WisdomItem :=
  ws.find? (·.source_trace_id == tid)

/-- `",".join(tags)`. -/
def joinTags (tags : List String) : String := String.intercalate "," tags

/-- Result of one `distill_trace` call: the returned value, the store
afterwards, whether a DB session was opened, and how many times the LLM
summarizer ran. -/
structure DistillOutcome where
  result : Option WisdomItem
  store : Store
  sessionOpened : Bool
  summarizerCalls : ℕ
deriving Repr, DecidableEq

/-- `OdysseusService.distill_trace(trace_id, overwrite=...)`.  `useLLM` is
the `AOS_MEMORY_LLM` switch; `llmCard` is what the external summarizer
returns when it is actually invoked (it is only invoked when the trace has
logs; `distill_trace_with_llm` fetches at most 200 of them). -/
def distill_trace (useLLM : Bool) (llmCard : MemoryCard) (trace_id : String)
    (overwrite : Bool) (st : Store) : DistillOutcome :=
  let tid := pyStrip trace_id
  if tid = "" then ⟨none, st, false, 0⟩
  else
    let existing := if overwrite then none else findWisdomByTrace st.wisdom tid
    match existing with
    | some w => ⟨some w, st, true, 0⟩
    | none =>
      if useLLM then
        let logs := (tracedLogs st tid).take 200
        if logs = [] then ⟨none, st, true, 0⟩
        else
          let w : WisdomItem :=
            ⟨st.nextWisdomId, tid, llmCard.title, llmCard.summary, joinTags llmCard.tags⟩
          ⟨some w, ⟨st.logs, st.wisdom ++ [w], st.nextWisdomId + 1⟩, true, 1⟩
      else
        let logs := tracedLogs st tid
        if logs = [] then ⟨none, st, true, 0⟩
        else
          let card := heuristic_card tid logs
          let w : WisdomItem :=
            ⟨st.nextWisdomId, tid, card.title, card.content, card.tags⟩
          ⟨some w, ⟨st.logs, st.wisdom ++ [w], st.nextWisdomId + 1⟩, true, 0⟩

/-- HTTP-level outcome of the consolidate endpoint. -/
inductive HttpOutcome where
  | ok (w : WisdomItem)
  | httpError (code : ℕ) (detail : String)
deriving Repr, DecidableEq

/-- `POST /api/v1/memory/consolidate`: maps a `None` distill result to
HTTP 404 "Trace not found or empty". -/
def consolidate_memory (useLLM : Bool) (llmCard : MemoryCard) (trace_id : String)
    (overwrite : Bool) (st : Store) : HttpOutcome × Store :=
  let r := distill_trace useLLM llmCard trace_id overwrite st
  (match r.result with
   | none => .httpError 404 "Trace not found or empty"
   | some w => .ok w, r.store)

/-! ## SisyphusAgent.run_task and the /api/v1/agent/task endpoint -/

/-- What the LLM call does in one run: it is unavailable, returns an answer,
or raises. -/
inductive LLMOutcome where
  | unavailable
  | ok (answer : String) (next_steps : List String)
  | exn (message : String)
deriving Repr, DecidableEq

/-- The dictionary `run_task` returns, plus the list of
`odysseus.distill_trace` invocations `run_task` itself performs
(`(trace_id, overwrite)` pairs). -/
structure AgentRunResult where
  status : String
  trace_id : Option String
  agent_state : Option String
  entropy : Option ℕ
  answer : Option String
  distill_invocations : List (String × Bool)
deriving Repr, DecidableEq

/-- `SisyphusAgent.run_task(instruction)`.  `new_trace_id` is the fresh
trace identifier generated for this call and `memory_context` the formatted
recent wisdom; `llm` abstracts the external model call.  The body performs
no `distill_trace` call in any branch (agent.py lines 342–427). -/
def run_task (instruction memory_context new_trace_id : String)
    (llm : LLMOutcome) : AgentRunResult :=
  let instruction := pyStrip instruction
  if instruction = "" then ⟨"error", none, none, none, none, []⟩
  else
    match llm with
    | .unavailable =>
      ⟨"completed", some new_trace_id, some "NoLLM",
        some (count_tokens (instruction ++ "\n" ++ memory_context)),
        some "LLM is not configured. Set DEEPSEEK_API_KEY (and optionally AOS_AGENT_MODEL) to enable the agent.",
        []⟩
    | .exn m => ⟨"error", some new_trace_id, some "ERROR", none, some m, []⟩
    | .ok ans _steps =>
      ⟨"completed", some new_trace_id, some "Stable",
        some (count_tokens (instruction ++ "\n" ++ memory_context ++ "\n" ++ ans)),
        some ans, []⟩

/-- `POST /api/v1/agent/task` (`run_agent_task`): runs the agent, then — iff
`consolidate` is set and the result carries a non-blank trace id —
distills that trace with the default `overwrite=False`, unconditionally on
any reset policy.  Returns the result and the endpoint's own
`distill_trace` invocations. -/
def run_agent_task (instruction : String) (consolidate : Bool)
    (memory_context new_trace_id : String) (llm : LLMOutcome) :
    AgentRunResult × List (String × Bool) :=
  let r := run_task instruction memory_context new_trace_id llm
  let calls :=
    match r.trace_id with
    | some t => if consolidate ∧ pyStrip t ≠ "" then [(t, false)] else []
    | none => []
  (r, calls)

/-! ## Secret redaction and truncation (agent.py `_SECRET_RE`, `_redact_secrets`, `_truncate`, `_save_agent_log`) -/

/-- Keyword alternatives of `_SECRET_RE`, in the regex's alternation order
(`api[_-]?key` expands greedily to its three variants). -/
def kwApiU : List Char := ['a','p','i','_','k','e','y']
def kwApiH : List Char := ['a','p','i','-','k','e','y']
def kwApi : List Char := ['a','p','i','k','e','y']
def kwSecret : List Char := ['s','e','c','r','e','t']
def kwPassword : List Char := ['p','a','s','s','w','o','r','d']
def kwPasswd : List Char := ['p','a','s','s','w','d']
def kwToken : List Char := ['t','o','k','e','n']
def kwBearer : List Char := ['b','e','a','r','e','r']

/-- Case-insensitive prefix test (patterns are lowercase). -/
def isPrefixCI : List Char → List Char → Bool
  | [], _ => true
  | _ :: _, [] => false
  | p :: ps, c :: cs => if p == c.toLower then isPrefixCI ps cs else false

/-- The keyword group of `_SECRET_RE` matched at the head of `cs`
(case-insensitive, first alternative wins; the alternatives are pairwise
non-overlapping, so this is the regex's choice). -/
def matchKeyword (cs : List Char) : Option ℕ :=
  if isPrefixCI kwApiU cs then some 7
  else if isPrefixCI kwApiH cs then some 7
  else if isPrefixCI kwApi cs then some 6
  else if isPrefixCI kwSecret cs then some 6
  else if isPrefixCI kwPassword cs then some 8
  else if isPrefixCI kwPasswd cs then some 6
  else if isPrefixCI kwToken cs then some 5
  else if isPrefixCI kwBearer cs then some 6
  else none

/-- `\s*\S+` at the head: number of characters consumed, or `none` if no
non-whitespace value follows. -/
def matchVal : List Char → Option ℕ
  | [] => none
  | c :: l =>
    if pySpace c then (matchVal l).map (· + 1)
    else some (1 + (l.takeWhile (fun d => !pySpace d)).length)

/-- `\s*[:=]\s*\S+` at the head. -/
def matchTail : List Char → Option ℕ
  | [] => none
  | c :: l =>
    if pySpace c then (matchTail l).map (· + 1)
    else if c == ':' || c == '=' then (matchVal l).map (· + 1)
    else none

/-- Full `_SECRET_RE` match at the head of `cs`: length consumed.  The
pattern `(keyword)\s*[:=]\s*\S+` is deterministic, so greedy backtracking
never changes the outcome. -/
def matchAt (cs : List Char) : Option ℕ :=
  match matchKeyword cs with
  | none => none
  | some k => (matchTail (cs.drop k)).map (k + ·)

/-- The replacement text. -/
def redactedChars : List Char := "<redacted>".data

/-- `_SECRET_RE.sub("<redacted>", ·)`: leftmost, non-overlapping.  A match
consumes `n ≥ 1` characters, so `(c :: cs).drop n = cs.drop (n - 1)`. -/
def redactAux : List Char → List Char
  | [] => []
  | c :: cs =>
    match matchAt (c :: cs) with
    | some n => redactedChars ++ redactAux (cs.drop (n - 1))
    | none => c :: redactAux cs
termination_by l => l.length
decreasing_by
  · simp only [List.length_drop, List.length_cons]; omega
  · simp only [List.length_cons]; omega

/-- `_redact_secrets`. -/
def redact_secrets (s : String) : String := ⟨redactAux s.data⟩

/-- The recursion structure of `redactAux` as a relation between original
and redacted character lists (for reasoning about its output). -/
inductive RedactRel : List Char → List Char → Prop where
  | nil : RedactRel [] []
  | copy (c : Char) (orig out : List Char) :
      matchAt (c :: orig) = none → RedactRel orig out →
      RedactRel (c :: orig) (c :: out)
  | redacted (c : Char) (orig out : List Char) (n : ℕ) :
      matchAt (c :: orig) = some n → RedactRel (orig.drop (n - 1)) out →
      RedactRel (c :: orig) (redactedChars ++ out)

/-- The fixed truncation marker appended by `_truncate` (13 characters). -/
def truncationMarker : String := "\n…(truncated)"

/-- `_truncate(text, limit=...)`: redact, then cut to `limit` characters
with the marker appended. -/
def truncateWithLimit (text : String) (limit : ℕ) : String :=
  let redacted := redact_secrets text
  if redacted.length ≤ limit then redacted
  else ⟨redacted.data.take limit⟩ ++ truncationMarker

/-- Plain truncation with marker (no redaction): used to state that
`_truncate` redacts *before* truncating. -/
def truncateOnly (s : String) (limit : ℕ) : String :=
  if s.length ≤ limit then s else ⟨s.data.take limit⟩ ++ truncationMarker

/-- The message text `_save_agent_log` persists as a `LogEntry` row:
nothing for a falsy trace id, otherwise `_truncate(message, limit=2000)`. -/
def save_agent_log_message (trace_id : Option String) (message : String) :
    Option String :=
  match trace_id with
  | none => none
  | some t => if t = "" then none else some (truncateWithLimit message 2000)

/-! ## Concrete fixtures for counterexamples and witnesses -/

/-- Shorthand log constructor. -/
def mkLog (lvl name : String) (msg : Option String) (ts : ℚ) (tid : String) :
    LogEntry :=
  ⟨lvl, name, msg, ts, tid⟩

/-- Nine ERROR events then one INFO (most-recent-first window), trace `t9`. -/
def logsNineErrors : List LogEntry :=
  [mkLog "ERROR" "aos.agent" (some "boom") 0 "t9",
   mkLog "ERROR" "aos.agent" (some "boom") 1 "t9",
   mkLog "ERROR" "aos.agent" (some "boom") 2 "t9",
   mkLog "ERROR" "aos.agent" (some "boom") 3 "t9",
   mkLog "ERROR" "aos.agent" (some "boom") 4 "t9",
   mkLog "ERROR" "aos.agent" (some "boom") 5 "t9",
   mkLog "ERROR" "aos.agent" (some "boom") 6 "t9",
   mkLog "ERROR" "aos.agent" (some "boom") 7 "t9",
   mkLog "ERROR" "aos.agent" (some "boom") 8 "t9",
   mkLog "INFO" "aos.agent" (some "ok") 9 "t9"]

/-- Ten ERROR events. -/
def logsTenErrors : List LogEntry :=
  [mkLog "ERROR" "aos.agent" (some "boom") 0 "tA",
   mkLog "ERROR" "aos.agent" (some "boom") 1 "tA",
   mkLog "ERROR" "aos.agent" (some "boom") 2 "tA",
   mkLog "ERROR" "aos.agent" (some "boom") 3 "tA",
   mkLog "ERROR" "aos.agent" (some "boom") 4 "tA",
   mkLog "ERROR" "aos.agent" (some "boom") 5 "tA",
   mkLog "ERROR" "aos.agent" (some "boom") 6 "tA",
   mkLog "ERROR" "aos.agent" (some "boom") 7 "tA",
   mkLog "ERROR" "aos.agent" (some "boom") 8 "tA",
   mkLog "ERROR" "aos.agent" (some "boom") 9 "tA"]

/-- Eight ERROR and two INFO events. -/
def logsEightTwo : List LogEntry :=
  [mkLog "ERROR" "aos.agent" (some "boom") 0 "tB",
   mkLog "ERROR" "aos.agent" (some "boom") 1 "tB",
   mkLog "ERROR" "aos.agent" (some "boom") 2 "tB",
   mkLog "ERROR" "aos.agent" (some "boom") 3 "tB",
   mkLog "ERROR" "aos.agent" (some "boom") 4 "tB",
   mkLog "ERROR" "aos.agent" (some "boom") 5 "tB",
   mkLog "ERROR" "aos.agent" (some "boom") 6 "tB",
   mkLog "ERROR" "aos.agent" (some "boom") 7 "tB",
   mkLog "INFO" "aos.agent" (some "ok") 8 "tB",
   mkLog "INFO" "aos.agent" (some "ok") 9 "tB"]

/-- Two-event trace whose chronologically first logger (`zeta`) differs from
the alphabetically first one (`alpha`). -/
def logsLoggerOrder : List LogEntry :=
  [mkLog "ERROR" "zeta" (some "disk full") 0 "t6",
   mkLog "INFO" "alpha" (some "retrying") 1 "t6"]

/-- The spec's success example: four INFO entries spanning 12.5 seconds. -/
def logsSuccessFour : List LogEntry :=
  [mkLog "INFO" "aos.worker" (some "start") 0 "t4",
   mkLog "INFO" "aos.worker" (some "step1") 4 "t4",
   mkLog "INFO" "aos.worker" (some "step2") 9 "t4",
   mkLog "INFO" "aos.worker" (some "done") (25/2) "t4"]

/-- A fixed summarizer output used when a concrete LLM card is needed. -/
def sampleCard : MemoryCard := ⟨"Sample title", "Sample summary", ["a", "b"]⟩

/-- Empty store. -/
def stEmpty : Store := ⟨[], [], 0⟩

/-- A store holding a wisdom item for trace `t1` but no logs at all
(the spec's "logs purged after distillation" state). -/
def stWisdomNoLogs : Store :=
  ⟨[], [⟨0, "t1", "Old title", "Old content", "bug"⟩], 1⟩

/-- A store with a one-event trace `t2` and no wisdom yet. -/
def stOneLog : Store :=
  ⟨[mkLog "ERROR" "aos.a" (some "disk full") 0 "t2"], [], 5⟩

/-! # Theorems -/

/-! ## Helper lemmas -/

lemma anxiety_score_foldl (l : List LogEntry) (a : ℚ) :
    l.foldl
      (fun acc log =>
        if log.level = "ERROR" then acc + 1
        else if log.level = "WARNING" then acc + 1/2
        else acc) a
    = a + (l.countP (·.level == "ERROR") : ℚ)
        + (l.countP (·.level == "WARNING") : ℚ) * (1/2) := by
  induction l generalizing a with
  | nil => simp
  | cons x xs ih =>
    simp only [List.foldl_cons, List.countP_cons]
    by_cases hE : x.level = "ERROR"
    · have hW : ¬ x.level = "WARNING" := by rw [hE]; decide
      rw [ih]
      simp [hE, hW]
      ring
    · by_cases hW : x.level = "WARNING"
      · rw [ih]
        simp [hE, hW]
        ring
      · rw [ih]
        simp [hE, hW]

/-! ## C3: should_reset is the OR of the two triggers -/

/-- C3: `should_reset(current_tokens, recent_logs)` is true iff
`current_tokens > 0.9 × 128000` or `calculate_anxiety(recent_logs) ≥ 0.8`;
each trigger suffices alone and both must fail for `false`. -/
theorem spec_C3 (t : ℕ) (logs : List LogEntry) :
    should_reset t logs = true ↔
      ((t : ℚ) > (128000 : ℚ) * (9/10) ∨ calculate_anxiety logs ≥ 8/10) := by
  have hm : ((MAX_TOKENS : ℕ) : ℚ) = (128000 : ℚ) := by norm_num [MAX_TOKENS]
  unfold should_reset
  rw [hm]
  by_cases h1 : (t : ℚ) > (128000 : ℚ) * (9/10)
  · simp [h1]
  · by_cases h2 : calculate_anxiety logs ≥ CRITICAL_ANXIETY
    · have h2' : calculate_anxiety logs ≥ 8/10 := h2
      simp [h1, h2, h2']
    · have h2' : ¬ calculate_anxiety logs ≥ 8/10 := h2
      simp [h1, h2, h2']

/-! ## C4: the anxiety formula -/

/-- C4: `calculate_anxiety` returns exactly 0 on the empty list, and on a
non-empty list with positive window it is
`min(1, (count ERROR × 1 + count WARNING × 0.5) / n)` with
`n = min(length, window)` the window size actually used. -/
theorem spec_C4 :
    (∀ w, calculate_anxiety [] w = 0) ∧
    (∀ (logs : List LogEntry) (w : ℕ), logs ≠ [] → 0 < w →
      calculate_anxiety logs w =
        min 1 ((((logs.take w).countP (·.level == "ERROR") : ℚ) * 1 +
                ((logs.take w).countP (·.level == "WARNING") : ℚ) * (1/2)) /
               ((min logs.length w : ℕ) : ℚ))) := by
  constructor
  · intro w; simp [calculate_anxiety]
  · intro logs w hne _hw
    unfold calculate_anxiety
    rw [if_neg hne]
    simp only [anxiety_score_foldl, zero_add, List.length_take]
    rw [min_comm 1, min_comm w logs.length]
    push_cast
    ring_nf

/-- Witness for C4 at the spec's concrete windows: ten all-ERROR events give
anxiety 1, eight ERROR plus two INFO give 0.8. -/
theorem spec_C4_witness :
    calculate_anxiety logsTenErrors 10 = 1 ∧
    calculate_anxiety logsEightTwo 10 = 8/10 := by
  constructor
  · rw [spec_C4.2 logsTenErrors 10 (by decide) (by decide)]
    have h1 : (logsTenErrors.take 10).countP (·.level == "ERROR") = 10 := by decide
    have h2 : (logsTenErrors.take 10).countP (·.level == "WARNING") = 0 := by decide
    have h3 : logsTenErrors.length = 10 := by decide
    rw [h1, h2, h3]
    norm_num [min_def]
  · rw [spec_C4.2 logsEightTwo 10 (by decide) (by decide)]
    have h1 : (logsEightTwo.take 10).countP (·.level == "ERROR") = 8 := by decide
    have h2 : (logsEightTwo.take 10).countP (·.level == "WARNING") = 0 := by decide
    have h3 : logsEightTwo.length = 10 := by decide
    rw [h1, h2, h3]
    norm_num [min_def]

/-! ## C5: the fallback cost estimator rounds down, not up -/

/-- C5 counterexample: for the three-character text `"abc"` the code returns
`3 // 4 = 0`, while `ceil(3 / 4) = (3 + 3) / 4 = 1` as the claim states. -/
theorem spec_C5_counterexample :
    count_tokens "abc" ≠ (String.length "abc" + 3) / 4 := by
  decide

/-- C5 amended: the fallback estimator returns `floor(length / 4)` (here
characterised as the unique `c` with `4c ≤ length < 4c + 4`), not the
ceiling. -/
theorem spec_C5_amended (s : String) :
    4 * count_tokens s ≤ s.length ∧ s.length < 4 * count_tokens s + 4 := by
  unfold count_tokens
  omega

/-! ## C9: monotonicity of the fallback cost estimator -/

/-- C9: under the fallback strategy the estimator is monotone non-decreasing
in text length, and the empty text costs 0. -/
theorem spec_C9 :
    (∀ s t : String, s.length ≤ t.length → count_tokens s ≤ count_tokens t) ∧
    count_tokens "" = 0 := by
  constructor
  · intro s t h
    exact Nat.div_le_div_right h
  · rfl

/-- Witness for C9's monotonicity at concrete texts. -/
theorem spec_C9_witness : count_tokens "ab" ≤ count_tokens "abcdef" :=
  spec_C9.1 "ab" "abcdef" (by decide)

/-! ## C6: the heuristic distillation card -/

lemma duration_s_eq_last_sub_head (logs : List LogEntry) (h : logs ≠ []) :
    duration_s logs =
      ((logs.getLast?.map (·.timestamp)).getD 0) -
        ((logs.head?.map (·.timestamp)).getD 0) := by
  match logs, h with
  | [x], _ => simp [duration_s]
  | x :: y :: t, _ =>
    have hlen : 1 < (x :: y :: t).length := by
      simp only [List.length_cons]
      omega
    rw [duration_s, if_pos hlen]

/-- C6 counterexample: in a trace whose chronologically first logger is
`zeta` but whose alphabetically first logger is `alpha`, the produced title
names `alpha`, not the claim's "first logger name" `zeta`. -/
theorem spec_C6_counterexample :
    (heuristic_card "t6" logsLoggerOrder).title ≠
      "Failure Pattern Detected in " ++ spec_first_logger_name logsLoggerOrder := by
  decide

/-- C6 amended: with "first logger name" read as the alphabetically first
distinct non-empty logger name (`primary_logger`, or `"unknown"`), a
non-empty trace with at least one ERROR event yields the failure card
(title, error count and truncated last stripped message in the summary,
tags `bug,error,failure`), and a trace with no ERROR event yields the
success card (elapsed time last−first formatted to two decimals, entry
count, tags `success,performance`). -/
theorem spec_C6_amended (tid : String) (logs : List LogEntry) (hne : logs ≠ []) :
    ((∃ l ∈ logs, l.level = "ERROR") →
      heuristic_card tid logs =
        ⟨"Failure Pattern Detected in " ++ primary_logger logs,
         "Trace " ++ takeChars 8 tid ++ " encountered " ++ toString (error_count logs)
           ++ " errors. Primary source: " ++ takeChars 120 (last_message_stripped logs),
         "bug,error,failure"⟩) ∧
    ((∀ l ∈ logs, l.level ≠ "ERROR") →
      heuristic_card tid logs =
        ⟨"Successful Execution: " ++ primary_logger logs,
         "Completed task in "
           ++ fmtFixed2 (((logs.getLast?.map (·.timestamp)).getD 0) -
                         ((logs.head?.map (·.timestamp)).getD 0))
           ++ "s. Steps involved: " ++ toString logs.length ++ " entries.",
         "success,performance"⟩) := by
  constructor
  · intro hex
    obtain ⟨l, hl, hlvl⟩ := hex
    have hpos : 0 < error_count logs := by
      rw [error_count, List.countP_pos_iff]
      exact ⟨l, hl, by simp [hlvl]⟩
    rw [heuristic_card, if_pos hpos]
  · intro hnone
    have hzero : ¬ 0 < error_count logs := by
      rw [error_count, List.countP_pos_iff]
      rintro ⟨l, hl, hlvl⟩
      exact hnone l hl (by simpa using hlvl)
    rw [heuristic_card, if_neg hzero, ← duration_s_eq_last_sub_head logs hne]

/-- Witness for C6 at the spec's two scenarios (a failing trace and the
12.5-second four-entry success trace). -/
theorem spec_C6_witness :
    (heuristic_card "t6" logsLoggerOrder).title = "Failure Pattern Detected in alpha" ∧
    (heuristic_card "t6" logsLoggerOrder).tags = "bug,error,failure" ∧
    (heuristic_card "t4" logsSuccessFour).title = "Successful Execution: aos.worker" ∧
    (heuristic_card "t4" logsSuccessFour).content =
      "Completed task in 12.50s. Steps involved: 4 entries." := by
  have hA := (spec_C6_amended "t6" logsLoggerOrder (by simp [logsLoggerOrder])).1
    ⟨mkLog "ERROR" "zeta" (some "disk full") 0 "t6", by
      rw [logsLoggerOrder]; exact List.mem_cons_self _ _, rfl⟩
  have hB := (spec_C6_amended "t4" logsSuccessFour (by simp [logsSuccessFour])).2
    (by
      intro l hl
      simp only [logsSuccessFour, List.mem_cons, List.not_mem_nil, or_false] at hl
      rcases hl with rfl | rfl | rfl | rfl <;> decide)
  refine ⟨?_, ?_, ?_, ?_⟩
  · rw [hA]; decide
  · rw [hA]
  · rw [hB]; decide
  · rw [hB]
    have hq : ((logsSuccessFour.getLast?.map (·.timestamp)).getD 0 : ℚ) -
        ((logsSuccessFour.head?.map (·.timestamp)).getD 0) = 25/2 := by
      simp [logsSuccessFour, mkLog]
    rw [hq]
    have hf : fmtFixed2 (25/2 : ℚ) = "12.50" := by
      norm_num [fmtFixed2, roundHalfEven, ratFloor]
      decide
    rw [hf]
    have hlen : logsSuccessFour.length = 4 := by decide
    rw [hlen]
    decide

/-! ## Distillation: unfolding lemmas -/

lemma findWisdom_append_self (ws : List WisdomItem) (t : String) (w : WisdomItem)
    (h : findWisdomByTrace ws t = none) (hw : w.source_trace_id = t) :
    findWisdomByTrace (ws ++ [w]) t = some w := by
  unfold findWisdomByTrace at *
  rw [List.find?_append, h]
  rw [@List.find?_cons_of_pos _ (fun w' : WisdomItem => w'.source_trace_id == t) w []
    (by simp [hw])]
  rfl

lemma distill_existing (u : Bool) (c : MemoryCard) (st : Store) (tid : String)
    (w : WisdomItem) (h0 : ¬ pyStrip tid = "")
    (h : findWisdomByTrace st.wisdom (pyStrip tid) = some w) :
    distill_trace u c tid false st = ⟨some w, st, true, 0⟩ := by
  unfold distill_trace
  rw [if_neg h0]
  simp [h]

lemma distill_nologs (u : Bool) (c : MemoryCard) (st : Store) (tid : String)
    (ow : Bool) (h0 : ¬ pyStrip tid = "")
    (hex : (if ow then none else findWisdomByTrace st.wisdom (pyStrip tid)) = none)
    (hl : tracedLogs st (pyStrip tid) = []) :
    distill_trace u c tid ow st = ⟨none, st, true, 0⟩ := by
  unfold distill_trace
  rw [if_neg h0]
  rw [hex]
  cases u <;> simp [hl]

lemma distill_create_heuristic (c : MemoryCard) (st : Store) (tid : String)
    (ow : Bool) (h0 : ¬ pyStrip tid = "")
    (hex : (if ow then none else findWisdomByTrace st.wisdom (pyStrip tid)) = none)
    (hl : tracedLogs st (pyStrip tid) ≠ []) :
    distill_trace false c tid ow st =
      ⟨some ⟨st.nextWisdomId, pyStrip tid,
          (heuristic_card (pyStrip tid) (tracedLogs st (pyStrip tid))).title,
          (heuristic_card (pyStrip tid) (tracedLogs st (pyStrip tid))).content,
          (heuristic_card (pyStrip tid) (tracedLogs st (pyStrip tid))).tags⟩,
        ⟨st.logs,
          st.wisdom ++ [⟨st.nextWisdomId, pyStrip tid,
            (heuristic_card (pyStrip tid) (tracedLogs st (pyStrip tid))).title,
            (heuristic_card (pyStrip tid) (tracedLogs st (pyStrip tid))).content,
            (heuristic_card (pyStrip tid) (tracedLogs st (pyStrip tid))).tags⟩],
          st.nextWisdomId + 1⟩, true, 0⟩ := by
  unfold distill_trace
  rw [if_neg h0]
  rw [hex]
  simp [hl]

lemma distill_create_llm (c : MemoryCard) (st : Store) (tid : String)
    (ow : Bool) (h0 : ¬ pyStrip tid = "")
    (hex : (if ow then none else findWisdomByTrace st.wisdom (pyStrip tid)) = none)
    (hl : (tracedLogs st (pyStrip tid)).take 200 ≠ []) :
    distill_trace true c tid ow st =
      ⟨some ⟨st.nextWisdomId, pyStrip tid, c.title, c.summary, joinTags c.tags⟩,
        ⟨st.logs,
          st.wisdom ++ [⟨st.nextWisdomId, pyStrip tid, c.title, c.summary, joinTags c.tags⟩],
          st.nextWisdomId + 1⟩, true, 1⟩ := by
  unfold distill_trace
  rw [if_neg h0]
  rw [hex]
  simp [hl]

lemma take200_ne_nil {l : List LogEntry} (h : l ≠ []) : l.take 200 ≠ [] := by
  intro hc
  rcases List.take_eq_nil_iff.1 hc with h200 | hnil
  · omega
  · exact h hnil

lemma not_mem_ids_of_lt (st : Store)
    (h : ∀ w ∈ st.wisdom, w.id < st.nextWisdomId) :
    st.nextWisdomId ∉ st.wisdom.map (·.id) := by
  intro hmem
  rcases List.mem_map.1 hmem with ⟨w, hw, hid⟩
  have := h w hw
  omega

/-- With `overwrite=true` and a non-empty trace, a fresh item (id not among
the existing ones) is created and returned. -/
lemma distill_overwrite_new (u : Bool) (c : MemoryCard) (tid : String) (st : Store)
    (h0 : ¬ pyStrip tid = "")
    (hl : tracedLogs st (pyStrip tid) ≠ [])
    (hwf : ∀ w ∈ st.wisdom, w.id < st.nextWisdomId) :
    ∃ w', (distill_trace u c tid true st).result = some w' ∧
      w'.id ∉ st.wisdom.map (·.id) := by
  cases u
  · rw [distill_create_heuristic c st tid true h0 rfl hl]
    exact ⟨_, rfl, not_mem_ids_of_lt st hwf⟩
  · rw [distill_create_llm c st tid true h0 rfl (take200_ne_nil hl)]
    exact ⟨_, rfl, not_mem_ids_of_lt st hwf⟩

/-! ## C2: distillation is idempotent by default, renewed on overwrite -/

/-- C2: for a store whose wisdom ids are fresh-bounded and a trace with
stored log events, a second `distill` with `overwrite=false` returns the
very item of the first call, changes nothing and never invokes the
summarizer, while a second call with `overwrite=true` produces a new item
whose id did not exist before. -/
theorem spec_C2 (useLLM : Bool) (card₁ card₂ card₃ : MemoryCard) (tid : String)
    (st : Store)
    (hwf : ∀ w ∈ st.wisdom, w.id < st.nextWisdomId)
    (hne : pyStrip tid ≠ "")
    (hlogs : tracedLogs st (pyStrip tid) ≠ []) :
    (∃ w, (distill_trace useLLM card₁ tid false st).result = some w ∧
        (distill_trace useLLM card₂ tid false
          (distill_trace useLLM card₁ tid false st).store).result = some w) ∧
    (distill_trace useLLM card₂ tid false
      (distill_trace useLLM card₁ tid false st).store).store =
      (distill_trace useLLM card₁ tid false st).store ∧
    (distill_trace useLLM card₂ tid false
      (distill_trace useLLM card₁ tid false st).store).summarizerCalls = 0 ∧
    (∃ w', (distill_trace useLLM card₃ tid true
        (distill_trace useLLM card₁ tid false st).store).result = some w' ∧
      w'.id ∉ (distill_trace useLLM card₁ tid false st).store.wisdom.map (·.id)) := by
  cases hfind : findWisdomByTrace st.wisdom (pyStrip tid) with
  | some w =>
    have h1 := distill_existing useLLM card₁ st tid w hne hfind
    have h2 := distill_existing useLLM card₂ st tid w hne hfind
    refine ⟨⟨w, by simp [h1], by simp [h1, h2]⟩, by simp [h1, h2], by simp [h1, h2], ?_⟩
    simp only [h1]
    exact distill_overwrite_new useLLM card₃ tid st hne hlogs hwf
  | none =>
    have hex : (if false then none else findWisdomByTrace st.wisdom (pyStrip tid)) = none := by
      simpa using hfind
    cases useLLM with
    | false =>
      have h1 := distill_create_heuristic card₁ st tid false hne hex hlogs
      simp only [h1]
      set w₁ : WisdomItem :=
        ⟨st.nextWisdomId, pyStrip tid,
          (heuristic_card (pyStrip tid) (tracedLogs st (pyStrip tid))).title,
          (heuristic_card (pyStrip tid) (tracedLogs st (pyStrip tid))).content,
          (heuristic_card (pyStrip tid) (tracedLogs st (pyStrip tid))).tags⟩ with hw₁
      set st₁ : Store := ⟨st.logs, st.wisdom ++ [w₁], st.nextWisdomId + 1⟩ with hst₁
      have hfind₁ : findWisdomByTrace st₁.wisdom (pyStrip tid) = some w₁ :=
        findWisdom_append_self st.wisdom (pyStrip tid) w₁ hfind rfl
      have h2 := distill_existing false card₂ st₁ tid w₁ hne hfind₁
      have hwf₁ : ∀ w ∈ st₁.wisdom, w.id < st₁.nextWisdomId := by
        intro w hw
        rcases List.mem_append.1 hw with hold | hnew
        · have := hwf w hold
          simp only [hst₁]
          omega
        · rcases List.mem_singleton.1 hnew with rfl
          simp [hw₁, hst₁]
      have hlogs₁ : tracedLogs st₁ (pyStrip tid) ≠ [] := hlogs
      refine ⟨⟨w₁, rfl, by rw [h2]⟩, by rw [h2], by rw [h2], ?_⟩
      exact distill_overwrite_new false card₃ tid st₁ hne hlogs₁ hwf₁
    | true =>
      have h1 := distill_create_llm card₁ st tid false hne hex (take200_ne_nil hlogs)
      simp only [h1]
      set w₁ : WisdomItem :=
        ⟨st.nextWisdomId, pyStrip tid, card₁.title, card₁.summary, joinTags card₁.tags⟩
        with hw₁
      set st₁ : Store := ⟨st.logs, st.wisdom ++ [w₁], st.nextWisdomId + 1⟩ with hst₁
      have hfind₁ : findWisdomByTrace st₁.wisdom (pyStrip tid) = some w₁ :=
        findWisdom_append_self st.wisdom (pyStrip tid) w₁ hfind rfl
      have h2 := distill_existing true card₂ st₁ tid w₁ hne hfind₁
      have hwf₁ : ∀ w ∈ st₁.wisdom, w.id < st₁.nextWisdomId := by
        intro w hw
        rcases List.mem_append.1 hw with hold | hnew
        · have := hwf w hold
          simp only [hst₁]
          omega
        · rcases List.mem_singleton.1 hnew with rfl
          simp [hw₁, hst₁]
      have hlogs₁ : tracedLogs st₁ (pyStrip tid) ≠ [] := hlogs
      refine ⟨⟨w₁, rfl, by rw [h2]⟩, by rw [h2], by rw [h2], ?_⟩
      exact distill_overwrite_new true card₃ tid st₁ hne hlogs₁ hwf₁

/-- Witness for C2: both calls on a one-event trace return the same item. -/
theorem spec_C2_witness :
    ∃ w, (distill_trace false sampleCard "t2" false stOneLog).result = some w ∧
      (distill_trace false sampleCard "t2" false
        (distill_trace false sampleCard "t2" false stOneLog).store).result = some w :=
  (spec_C2 false sampleCard sampleCard sampleCard "t2" stOneLog
    (by decide) (by decide) (by decide)).1

/-! ## C7: distilling a trace with no logs -/

/-- C7 counterexample: trace `t1` has zero stored log events, yet — because
a WisdomItem for `t1` already exists and `overwrite=false` checks the vault
*before* fetching logs — `distill` returns that item, not a NotFound
`none`. -/
theorem spec_C7_counterexample :
    tracedLogs stWisdomNoLogs "t1" = [] ∧
    (distill_trace false sampleCard "t1" false stWisdomNoLogs).result ≠ none := by
  decide

/-- C7 amended: for a non-blank trace id with zero stored log events,
`distill` returns `none` (NotFound), leaves the store untouched and never
invokes the summarizer — provided no WisdomItem for the trace already
exists when `overwrite=false` (with `overwrite=true` it holds always), on
both the heuristic and the LLM path. -/
theorem spec_C7_amended (useLLM : Bool) (card : MemoryCard) (tid : String)
    (ow : Bool) (st : Store)
    (h0 : pyStrip tid ≠ "")
    (hl : tracedLogs st (pyStrip tid) = [])
    (hex : ow = true ∨ findWisdomByTrace st.wisdom (pyStrip tid) = none) :
    distill_trace useLLM card tid ow st = ⟨none, st, true, 0⟩ := by
  have hex' : (if ow then none else findWisdomByTrace st.wisdom (pyStrip tid)) = none := by
    rcases hex with h | h
    · simp [h]
    · cases ow <;> simp [h]
  exact distill_nologs useLLM card st tid ow h0 hex' hl

/-- Witness for C7 on both summarizer paths over the empty store. -/
theorem spec_C7_witness :
    distill_trace true sampleCard "tX" true stEmpty = ⟨none, stEmpty, true, 0⟩ ∧
    distill_trace false sampleCard "tX" false stEmpty = ⟨none, stEmpty, true, 0⟩ :=
  ⟨spec_C7_amended true sampleCard "tX" true stEmpty (by decide) rfl (Or.inl rfl),
   spec_C7_amended false sampleCard "tX" false stEmpty (by decide) rfl (Or.inr rfl)⟩

/-! ## C8: blank trace ids -/

/-- C8 counterexample: a whitespace trace id and a missing trace produce the
*same* `none` result and the same HTTP 404 — the rejection is not an
outcome distinct from NotFound. -/
theorem spec_C8_counterexample :
    (distill_trace false sampleCard " " false stEmpty).result =
      (distill_trace false sampleCard "ghost" false stEmpty).result ∧
    (consolidate_memory false sampleCard " " false stEmpty).1 =
      (consolidate_memory false sampleCard "ghost" false stEmpty).1 := by
  decide

/-- C8 amended: a trace id that strips to empty is rejected immediately with
no side effects — no session opened, store untouched, summarizer never
invoked — but the returned sentinel is the same `none` that NotFound
produces (the HTTP layer maps both to 404). -/
theorem spec_C8_amended (useLLM : Bool) (card : MemoryCard) (tid : String)
    (ow : Bool) (st : Store) (h : pyStrip tid = "") :
    distill_trace useLLM card tid ow st = ⟨none, st, false, 0⟩ := by
  unfold distill_trace
  rw [h]
  simp

/-- Witness for C8 at a two-space trace id. -/
theorem spec_C8_witness :
    distill_trace false sampleCard "  " true stEmpty = ⟨none, stEmpty, false, 0⟩ :=
  spec_C8_amended false sampleCard "  " true stEmpty (by decide)

/-! ## C1: run_task never consults the reset policy -/

/-- C1 counterexample: in a successful run over a trace whose window holds
nine ERROR events and one INFO event, the reset policy (evaluated on the
run's accumulated token cost and that window) does indicate reset, yet
`run_task` returns state `Stable` — not `Reset` — and performs no
distillation call. -/
theorem spec_C1_counterexample :
    should_reset
      (((run_task "investigate" "" "t9" (.ok "done" [])).entropy).getD 0)
      logsNineErrors = true ∧
    (run_task "investigate" "" "t9" (.ok "done" [])).agent_state = some "Stable" ∧
    (run_task "investigate" "" "t9" (.ok "done" [])).agent_state ≠ some "Reset" ∧
    (run_task "investigate" "" "t9" (.ok "done" [])).distill_invocations = [] := by
  have hrun : run_task "investigate" "" "t9" (.ok "done" []) =
      ⟨"completed", some "t9", some "Stable", some 4, some "done", []⟩ := by
    decide
  have hanx : calculate_anxiety logsNineErrors 10 = 9/10 := by
    unfold calculate_anxiety
    rw [if_neg (by simp [logsNineErrors])]
    have htake : logsNineErrors.take 10 = logsNineErrors := by decide
    simp only [htake, anxiety_score_foldl, zero_add]
    have h1 : logsNineErrors.countP (·.level == "ERROR") = 9 := by decide
    have h2 : logsNineErrors.countP (·.level == "WARNING") = 0 := by decide
    have h3 : logsNineErrors.length = 10 := by decide
    rw [h1, h2, h3]
    norm_num [min_def]
  have hsr : should_reset 4 logsNineErrors = true := by
    unfold should_reset
    rw [hanx]
    norm_num [MAX_TOKENS, CRITICAL_ANXIETY]
  rw [hrun]
  exact ⟨hsr, rfl, by decide, rfl⟩

/-- C1 amended: `run_task` itself never invokes distillation and never
returns the state `Reset`, whatever the instruction, trace window, or LLM
outcome; instead the HTTP endpoint distills the returned trace
(overwrite=false) exactly when its `consolidate` flag is set and the result
carries a non-blank trace id — independent of any reset-policy
evaluation. -/
theorem spec_C1_amended (instruction memory_context new_trace_id : String)
    (llm : LLMOutcome) (consolidate : Bool) :
    (run_task instruction memory_context new_trace_id llm).distill_invocations = [] ∧
    (run_task instruction memory_context new_trace_id llm).agent_state ≠ some "Reset" ∧
    (∀ t, (run_task instruction memory_context new_trace_id llm).trace_id = some t →
      pyStrip t ≠ "" → consolidate = true →
      (run_agent_task instruction consolidate memory_context new_trace_id llm).2 =
        [(t, false)]) ∧
    (∀ t, (run_task instruction memory_context new_trace_id llm).trace_id = some t →
      pyStrip t = "" →
      (run_agent_task instruction consolidate memory_context new_trace_id llm).2 = []) ∧
    (consolidate = false →
      (run_agent_task instruction consolidate memory_context new_trace_id llm).2 = []) ∧
    ((run_task instruction memory_context new_trace_id llm).trace_id = none →
      (run_agent_task instruction consolidate memory_context new_trace_id llm).2 = []) := by
  refine ⟨?_, ?_, ?_, ?_, ?_, ?_⟩
  · cases llm <;> (simp only [run_task]; split <;> rfl)
  · cases llm <;> (simp only [run_task]; split <;> simp)
  · intro t ht hstrip hcons
    simp only [run_agent_task]
    rw [ht]
    simp [hstrip, hcons]
  · intro t ht hstrip
    simp only [run_agent_task]
    rw [ht]
    simp [hstrip]
  · intro hcons
    simp only [run_agent_task]
    cases htr : (run_task instruction memory_context new_trace_id llm).trace_id with
    | none => rfl
    | some t => simp [hcons]
  · intro htr
    simp only [run_agent_task]
    rw [htr]

/-- Witness for C1's amended behaviour on a concrete successful run: the
endpoint distills iff `consolidate` is set, and `run_task` itself never
distilled. -/
theorem spec_C1_witness :
    (run_task "list files" "" "t0" (.ok "files" [])).distill_invocations = [] ∧
    (run_agent_task "list files" true "" "t0" (.ok "files" [])).2 = [("t0", false)] ∧
    (run_agent_task "list files" false "" "t0" (.ok "files" [])).2 = [] := by
  refine ⟨(spec_C1_amended "list files" "" "t0" (.ok "files" []) true).1, ?_, ?_⟩
  · exact (spec_C1_amended "list files" "" "t0" (.ok "files" []) true).2.2.1 "t0"
      (by decide) (by decide) rfl
  · exact (spec_C1_amended "list files" "" "t0" (.ok "files" []) false).2.2.2.2.1 rfl

/-! ## C10 groundwork: the secret matcher -/

lemma pySpace_toLower_self (d : Char) (h : pySpace d = true) : d.toLower = d := by
  have hm : d ∈ wsCharList := by
    have h' : wsCharList.elem d = true := h
    exact (List.elem_iff).1 h'
  fin_cases hm <;> rfl

lemma nonspace_of_toLower (d x : Char) (hlow : d.toLower = x)
    (hx : pySpace x = false) : pySpace d = false := by
  cases hT : pySpace d
  · rfl
  · have hself : d.toLower = d := pySpace_toLower_self d hT
    rw [hself] at hlow
    subst hlow
    rw [hT] at hx
    simp at hx

lemma isPrefixCI_cons_elim (a : Char) (ps l : List Char)
    (h : isPrefixCI (a :: ps) l = true) :
    ∃ c cs, l = c :: cs ∧ c.toLower = a ∧ isPrefixCI ps cs = true := by
  cases l with
  | nil => simp [isPrefixCI] at h
  | cons c cs =>
    simp only [isPrefixCI] at h
    split_ifs at h with hb
    exact ⟨c, cs, rfl, (beq_iff_eq.1 hb).symm, h⟩

lemma isPrefixCI_congr (p : List Char) (l₁ l₂ : List Char)
    (h : l₁.take p.length = l₂.take p.length) :
    isPrefixCI p l₁ = isPrefixCI p l₂ := by
  induction p generalizing l₁ l₂ with
  | nil => rfl
  | cons a ps ih =>
    cases l₁ with
    | nil =>
      cases l₂ with
      | nil => rfl
      | cons c cs => simp [List.length_cons, List.take_succ_cons, List.take_nil] at h
    | cons c cs =>
      cases l₂ with
      | nil => simp [List.length_cons, List.take_succ_cons, List.take_nil] at h
      | cons d ds =>
        simp only [List.length_cons, List.take_succ_cons, List.cons.injEq] at h
        obtain ⟨rfl, h2⟩ := h
        simp only [isPrefixCI]
        rw [ih cs ds h2]

lemma isPrefixCI_get (p l : List Char) (h : isPrefixCI p l = true) :
    ∀ j, j < p.length → ∃ c, l.get? j = some c ∧ p.get? j = some c.toLower := by
  induction p generalizing l with
  | nil => intro j hj; simp at hj
  | cons a ps ih =>
    obtain ⟨c, cs, rfl, hlow, h'⟩ := isPrefixCI_cons_elim a ps l h
    intro j hj
    cases j with
    | zero => exact ⟨c, rfl, by simp [hlow]⟩
    | succ j' =>
      obtain ⟨d, hd1, hd2⟩ := ih cs h' j' (by simpa using hj)
      exact ⟨d, by simpa using hd1, by simpa using hd2⟩

lemma no_two_prefixesCI {e w l : List Char} (j : ℕ)
    (hje : j < e.length) (hjw : j < w.length) (hdiff : e.get? j ≠ w.get? j)
    (he : isPrefixCI e l = true) (hw : isPrefixCI w l = true) : False := by
  obtain ⟨c₁, hc₁, hpc₁⟩ := isPrefixCI_get e l he j hje
  obtain ⟨c₂, hc₂, hpc₂⟩ := isPrefixCI_get w l hw j hjw
  rw [hc₁] at hc₂
  injection hc₂ with hcc
  subst hcc
  exact hdiff (hpc₁.trans hpc₂.symm)

lemma prefixCI_false_of_diff {e w l : List Char} (j : ℕ)
    (hje : j < e.length) (hjw : j < w.length) (hdiff : e.get? j ≠ w.get? j)
    (hw : isPrefixCI w l = true) : isPrefixCI e l = false := by
  cases he : isPrefixCI e l
  · rfl
  · exact (no_two_prefixesCI j hje hjw hdiff he hw).elim

lemma prefixCI_boundary (p pre rest : List Char) (c₀ : Char)
    (h : isPrefixCI p (pre ++ c₀ :: rest) = true)
    (hnot : ∀ j, j < p.length → p.get? j ≠ some c₀.toLower) :
    p.length ≤ pre.length := by
  by_contra hgt
  push_neg at hgt
  obtain ⟨c, hc, hpc⟩ := isPrefixCI_get p _ h pre.length hgt
  have hidx : (pre ++ c₀ :: rest).get? pre.length = some c₀ := by
    rw [List.get?_append_right (le_refl _)]
    simp
  rw [hidx] at hc
  injection hc with hcc
  subst hcc
  exact hnot pre.length hgt hpc

lemma matchVal_some_of_nonspace_mem (l : List Char) (d : Char)
    (hd : d ∈ l) (hns : pySpace d = false) : ∃ v, matchVal l = some v := by
  induction l with
  | nil => cases hd
  | cons c t ih =>
    by_cases hc : pySpace c = true
    · have hdt : d ∈ t := by
        rcases List.mem_cons.1 hd with rfl | h
        · rw [hns] at hc; cases hc
        · exact h
      obtain ⟨v, hv⟩ := ih hdt
      exact ⟨v + 1, by simp [matchVal, hc, hv]⟩
    · refine ⟨1 + (t.takeWhile (fun d => !pySpace d)).length, ?_⟩
      simp [matchVal, hc]

lemma matchTail_cons_space (c : Char) (l : List Char) (hc : pySpace c = true) :
    matchTail (c :: l) = (matchTail l).map (· + 1) := by
  simp [matchTail, hc]

lemma matchTail_transfer (a ub ob : List Char) (d : Char) (m : ℕ)
    (hu : matchTail (a ++ '<' :: ub) = some m) (hd : pySpace d = false) :
    ∃ m', matchTail (a ++ d :: ob) = some m' := by
  induction a generalizing m with
  | nil =>
    exfalso
    have h1 : pySpace '<' = false := by decide
    have h2 : (('<' == ':') || ('<' == '=')) = false := by decide
    simp [matchTail, h1, h2] at hu
  | cons c a' ih =>
    by_cases hc : pySpace c = true
    · rw [List.cons_append, matchTail_cons_space c _ hc] at hu
      obtain ⟨m₀, hm₀, _⟩ := Option.map_eq_some'.1 hu
      obtain ⟨m', hm'⟩ := ih m₀ hm₀
      refine ⟨m' + 1, ?_⟩
      rw [List.cons_append, matchTail_cons_space c _ hc, hm']
      rfl
    · have hc' : pySpace c = false := by simpa using hc
      cases hcol : ((c == ':') || (c == '=')) with
      | false =>
        exfalso
        rw [List.cons_append] at hu
        simp [matchTail, hc', hcol] at hu
      | true =>
        obtain ⟨v, hv⟩ :=
          matchVal_some_of_nonspace_mem (a' ++ d :: ob) d (by simp) hd
        refine ⟨v + 1, ?_⟩
        rw [List.cons_append]
        simp [matchTail, hc', hcol, hv]

/-! ## C10: keyword matching is stable across the replacement boundary -/

lemma matchKeyword_boundary (pre rest : List Char) (k : ℕ)
    (h : matchKeyword (pre ++ '<' :: rest) = some k) : k ≤ pre.length := by
  unfold matchKeyword at h
  split_ifs at h with h1 h2 h3 h4 h5 h6 h7 h8
  · injection h with hk; subst hk
    exact prefixCI_boundary kwApiU pre rest '<' h1 (by decide)
  · injection h with hk; subst hk
    exact prefixCI_boundary kwApiH pre rest '<' h2 (by decide)
  · injection h with hk; subst hk
    exact prefixCI_boundary kwApi pre rest '<' h3 (by decide)
  · injection h with hk; subst hk
    exact prefixCI_boundary kwSecret pre rest '<' h4 (by decide)
  · injection h with hk; subst hk
    exact prefixCI_boundary kwPassword pre rest '<' h5 (by decide)
  · injection h with hk; subst hk
    exact prefixCI_boundary kwPasswd pre rest '<' h6 (by decide)
  · injection h with hk; subst hk
    exact prefixCI_boundary kwToken pre rest '<' h7 (by decide)
  · injection h with hk; subst hk
    exact prefixCI_boundary kwBearer pre rest '<' h8 (by decide)

lemma matchKeyword_transfer (pre tail₁ tail₂ : List Char) (k : ℕ)
    (h : matchKeyword (pre ++ tail₁) = some k) (hk : k ≤ pre.length) :
    matchKeyword (pre ++ tail₂) = some k := by
  have htake : ∀ p : List Char, p.length ≤ k →
      (pre ++ tail₂).take p.length = (pre ++ tail₁).take p.length := by
    intro p hp
    rw [List.take_append_of_le_length (le_trans hp hk),
      List.take_append_of_le_length (le_trans hp hk)]
  unfold matchKeyword at h
  split_ifs at h with h1 h2 h3 h4 h5 h6 h7 h8
  · injection h with hkk; subst hkk
    have hw : isPrefixCI kwApiU (pre ++ tail₂) = true := by
      rw [isPrefixCI_congr kwApiU (pre ++ tail₂) (pre ++ tail₁) (htake kwApiU (by decide))]
      exact h1
    unfold matchKeyword
    rw [hw]
    simp
  · injection h with hkk; subst hkk
    have hw : isPrefixCI kwApiH (pre ++ tail₂) = true := by
      rw [isPrefixCI_congr kwApiH (pre ++ tail₂) (pre ++ tail₁) (htake kwApiH (by decide))]
      exact h2
    have f1 : isPrefixCI kwApiU (pre ++ tail₂) = false :=
      prefixCI_false_of_diff 3 (by decide) (by decide) (by decide) hw
    unfold matchKeyword
    rw [f1, hw]
    simp
  · injection h with hkk; subst hkk
    have hw : isPrefixCI kwApi (pre ++ tail₂) = true := by
      rw [isPrefixCI_congr kwApi (pre ++ tail₂) (pre ++ tail₁) (htake kwApi (by decide))]
      exact h3
    have f1 : isPrefixCI kwApiU (pre ++ tail₂) = false :=
      prefixCI_false_of_diff 3 (by decide) (by decide) (by decide) hw
    have f2 : isPrefixCI kwApiH (pre ++ tail₂) = false :=
      prefixCI_false_of_diff 3 (by decide) (by decide) (by decide) hw
    unfold matchKeyword
    rw [f1, f2, hw]
    simp
  · injection h with hkk; subst hkk
    have hw : isPrefixCI kwSecret (pre ++ tail₂) = true := by
      rw [isPrefixCI_congr kwSecret (pre ++ tail₂) (pre ++ tail₁) (htake kwSecret (by decide))]
      exact h4
    have f1 : isPrefixCI kwApiU (pre ++ tail₂) = false :=
      prefixCI_false_of_diff 0 (by decide) (by decide) (by decide) hw
    have f2 : isPrefixCI kwApiH (pre ++ tail₂) = false :=
      prefixCI_false_of_diff 0 (by decide) (by decide) (by decide) hw
    have f3 : isPrefixCI kwApi (pre ++ tail₂) = false :=
      prefixCI_false_of_diff 0 (by decide) (by decide) (by decide) hw
    unfold matchKeyword
    rw [f1, f2, f3, hw]
    simp
  · injection h with hkk; subst hkk
    have hw : isPrefixCI kwPassword (pre ++ tail₂) = true := by
      rw [isPrefixCI_congr kwPassword (pre ++ tail₂) (pre ++ tail₁)
        (htake kwPassword (by decide))]
      exact h5
    have f1 : isPrefixCI kwApiU (pre ++ tail₂) = false :=
      prefixCI_false_of_diff 0 (by decide) (by decide) (by decide) hw
    have f2 : isPrefixCI kwApiH (pre ++ tail₂) = false :=
      prefixCI_false_of_diff 0 (by decide) (by decide) (by decide) hw
    have f3 : isPrefixCI kwApi (pre ++ tail₂) = false :=
      prefixCI_false_of_diff 0 (by decide) (by decide) (by decide) hw
    have f4 : isPrefixCI kwSecret (pre ++ tail₂) = false :=
      prefixCI_false_of_diff 0 (by decide) (by decide) (by decide) hw
    unfold matchKeyword
    rw [f1, f2, f3, f4, hw]
    simp
  · injection h with hkk; subst hkk
    have hw : isPrefixCI kwPasswd (pre ++ tail₂) = true := by
      rw [isPrefixCI_congr kwPasswd (pre ++ tail₂) (pre ++ tail₁)
        (htake kwPasswd (by decide))]
      exact h6
    have f1 : isPrefixCI kwApiU (pre ++ tail₂) = false :=
      prefixCI_false_of_diff 0 (by decide) (by decide) (by decide) hw
    have f2 : isPrefixCI kwApiH (pre ++ tail₂) = false :=
      prefixCI_false_of_diff 0 (by decide) (by decide) (by decide) hw
    have f3 : isPrefixCI kwApi (pre ++ tail₂) = false :=
      prefixCI_false_of_diff 0 (by decide) (by decide) (by decide) hw
    have f4 : isPrefixCI kwSecret (pre ++ tail₂) = false :=
      prefixCI_false_of_diff 0 (by decide) (by decide) (by decide) hw
    have f5 : isPrefixCI kwPassword (pre ++ tail₂) = false :=
      prefixCI_false_of_diff 5 (by decide) (by decide) (by decide) hw
    unfold matchKeyword
    rw [f1, f2, f3, f4, f5, hw]
    simp
  · injection h with hkk; subst hkk
    have hw : isPrefixCI kwToken (pre ++ tail₂) = true := by
      rw [isPrefixCI_congr kwToken (pre ++ tail₂) (pre ++ tail₁)
        (htake kwToken (by decide))]
      exact h7
    have f1 : isPrefixCI kwApiU (pre ++ tail₂) = false :=
      prefixCI_false_of_diff 0 (by decide) (by decide) (by decide) hw
    have f2 : isPrefixCI kwApiH (pre ++ tail₂) = false :=
      prefixCI_false_of_diff 0 (by decide) (by decide) (by decide) hw
    have f3 : isPrefixCI kwApi (pre ++ tail₂) = false :=
      prefixCI_false_of_diff 0 (by decide) (by decide) (by decide) hw
    have f4 : isPrefixCI kwSecret (pre ++ tail₂) = false :=
      prefixCI_false_of_diff 0 (by decide) (by decide) (by decide) hw
    have f5 : isPrefixCI kwPassword (pre ++ tail₂) = false :=
      prefixCI_false_of_diff 0 (by decide) (by decide) (by decide) hw
    have f6 : isPrefixCI kwPasswd (pre ++ tail₂) = false :=
      prefixCI_false_of_diff 0 (by decide) (by decide) (by decide) hw
    unfold matchKeyword
    rw [f1, f2, f3, f4, f5, f6, hw]
    simp
  · injection h with hkk; subst hkk
    have hw : isPrefixCI kwBearer (pre ++ tail₂) = true := by
      rw [isPrefixCI_congr kwBearer (pre ++ tail₂) (pre ++ tail₁)
        (htake kwBearer (by decide))]
      exact h8
    have f1 : isPrefixCI kwApiU (pre ++ tail₂) = false :=
      prefixCI_false_of_diff 0 (by decide) (by decide) (by decide) hw
    have f2 : isPrefixCI kwApiH (pre ++ tail₂) = false :=
      prefixCI_false_of_diff 0 (by decide) (by decide) (by decide) hw
    have f3 : isPrefixCI kwApi (pre ++ tail₂) = false :=
      prefixCI_false_of_diff 0 (by decide) (by decide) (by decide) hw
    have f4 : isPrefixCI kwSecret (pre ++ tail₂) = false :=
      prefixCI_false_of_diff 0 (by decide) (by decide) (by decide) hw
    have f5 : isPrefixCI kwPassword (pre ++ tail₂) = false :=
      prefixCI_false_of_diff 0 (by decide) (by decide) (by decide) hw
    have f6 : isPrefixCI kwPasswd (pre ++ tail₂) = false :=
      prefixCI_false_of_diff 0 (by decide) (by decide) (by decide) hw
    have f7 : isPrefixCI kwToken (pre ++ tail₂) = false :=
      prefixCI_false_of_diff 0 (by decide) (by decide) (by decide) hw
    unfold matchKeyword
    rw [f1, f2, f3, f4, f5, f6, f7, hw]
    simp

lemma matchAt_some_elim (cs : List Char) (n : ℕ) (h : matchAt cs = some n) :
    ∃ k t, matchKeyword cs = some k ∧ matchTail (cs.drop k) = some t ∧ n = k + t := by
  unfold matchAt at h
  cases hk : matchKeyword cs with
  | none => rw [hk] at h; cases h
  | some k =>
    rw [hk] at h
    obtain ⟨t, ht, hn⟩ := Option.map_eq_some'.1 h
    exact ⟨k, t, rfl, ht, hn.symm⟩

lemma matchAt_head_nonspace (cs : List Char) (n : ℕ) (h : matchAt cs = some n) :
    ∃ d cs', cs = d :: cs' ∧ pySpace d = false := by
  obtain ⟨k, t, hk, _, _⟩ := matchAt_some_elim cs n h
  unfold matchKeyword at hk
  split_ifs at hk with h1 h2 h3 h4 h5 h6 h7 h8
  · obtain ⟨d, cs', rfl, hlow, _⟩ := isPrefixCI_cons_elim 'a' _ cs h1
    exact ⟨d, cs', rfl, nonspace_of_toLower d 'a' hlow (by decide)⟩
  · obtain ⟨d, cs', rfl, hlow, _⟩ := isPrefixCI_cons_elim 'a' _ cs h2
    exact ⟨d, cs', rfl, nonspace_of_toLower d 'a' hlow (by decide)⟩
  · obtain ⟨d, cs', rfl, hlow, _⟩ := isPrefixCI_cons_elim 'a' _ cs h3
    exact ⟨d, cs', rfl, nonspace_of_toLower d 'a' hlow (by decide)⟩
  · obtain ⟨d, cs', rfl, hlow, _⟩ := isPrefixCI_cons_elim 's' _ cs h4
    exact ⟨d, cs', rfl, nonspace_of_toLower d 's' hlow (by decide)⟩
  · obtain ⟨d, cs', rfl, hlow, _⟩ := isPrefixCI_cons_elim 'p' _ cs h5
    exact ⟨d, cs', rfl, nonspace_of_toLower d 'p' hlow (by decide)⟩
  · obtain ⟨d, cs', rfl, hlow, _⟩ := isPrefixCI_cons_elim 'p' _ cs h6
    exact ⟨d, cs', rfl, nonspace_of_toLower d 'p' hlow (by decide)⟩
  · obtain ⟨d, cs', rfl, hlow, _⟩ := isPrefixCI_cons_elim 't' _ cs h7
    exact ⟨d, cs', rfl, nonspace_of_toLower d 't' hlow (by decide)⟩
  · obtain ⟨d, cs', rfl, hlow, _⟩ := isPrefixCI_cons_elim 'b' _ cs h8
    exact ⟨d, cs', rfl, nonspace_of_toLower d 'b' hlow (by decide)⟩

/-! ## C10: the redaction recursion and its safety -/

lemma redactAux_nil : redactAux [] = [] := by
  simp [redactAux]

lemma redactAux_cons_none (c : Char) (cs : List Char)
    (hm : matchAt (c :: cs) = none) : redactAux (c :: cs) = c :: redactAux cs := by
  simp [redactAux, hm]

lemma redactAux_cons_some (c : Char) (cs : List Char) (n : ℕ)
    (hm : matchAt (c :: cs) = some n) :
    redactAux (c :: cs) = redactedChars ++ redactAux (cs.drop (n - 1)) := by
  simp [redactAux, hm]

lemma redactRel_redactAux (cs : List Char) : RedactRel cs (redactAux cs) := by
  have H : ∀ n (cs : List Char), cs.length ≤ n → RedactRel cs (redactAux cs) := by
    intro n
    induction n with
    | zero =>
      intro cs hl
      have hnil : cs = [] := by
        cases cs
        · rfl
        · simp at hl
      subst hnil
      rw [redactAux_nil]
      exact RedactRel.nil
    | succ n ih =>
      intro cs hl
      cases cs with
      | nil =>
        rw [redactAux_nil]
        exact RedactRel.nil
      | cons c cs' =>
        simp only [List.length_cons] at hl
        cases hm : matchAt (c :: cs') with
        | none =>
          rw [redactAux_cons_none c cs' hm]
          exact RedactRel.copy c _ _ hm (ih cs' (by omega))
        | some m =>
          rw [redactAux_cons_some c cs' m hm]
          refine RedactRel.redacted c _ _ m hm (ih _ ?_)
          simp only [List.length_drop]
          omega
  exact H cs.length cs le_rfl

lemma redactRel_decomp {o u : List Char} (h : RedactRel o u) :
    u = o ∨ ∃ pre o₂ u₂ n, o = pre ++ o₂ ∧ u = pre ++ redactedChars ++ u₂ ∧
      matchAt o₂ = some n := by
  induction h with
  | nil => left; rfl
  | copy c orig out hm _ ih =>
    rcases ih with rfl | ⟨pre, o₂, u₂, n, rfl, rfl, hm₂⟩
    · left; rfl
    · right
      exact ⟨c :: pre, o₂, u₂, n, rfl, by simp, hm₂⟩
  | redacted c orig out n hm _ _ =>
    right
    exact ⟨[], c :: orig, out, n, rfl, by simp, hm⟩

lemma matchAt_none_transfer (o u : List Char) (hrel : RedactRel o u)
    (ho : matchAt o = none) : matchAt u = none := by
  rcases redactRel_decomp hrel with rfl | ⟨pre, o₂, u₂, n, rfl, rfl, hm₂⟩
  · exact ho
  · by_contra hne
    obtain ⟨m, hm⟩ := Option.ne_none_iff_exists'.1 hne
    have hass : pre ++ redactedChars ++ u₂ = pre ++ '<' :: ("redacted>".data ++ u₂) := by
      rw [List.append_assoc]
      rfl
    rw [hass] at hm
    obtain ⟨k, t, hk, ht, _⟩ := matchAt_some_elim _ m hm
    have hkle : k ≤ pre.length := matchKeyword_boundary pre _ k hk
    obtain ⟨d, o₃, rfl, hd⟩ := matchAt_head_nonspace o₂ n hm₂
    have hko : matchKeyword (pre ++ d :: o₃) = some k :=
      matchKeyword_transfer pre ('<' :: ("redacted>".data ++ u₂)) (d :: o₃) k hk hkle
    rw [List.drop_append_of_le_length hkle] at ht
    obtain ⟨m', hm'⟩ := matchTail_transfer (pre.drop k) ("redacted>".data ++ u₂) o₃ d t ht hd
    have hmo : matchAt (pre ++ d :: o₃) = some (k + m') := by
      unfold matchAt
      rw [hko]
      show (matchTail ((pre ++ d :: o₃).drop k)).map (k + ·) = some (k + m')
      rw [List.drop_append_of_le_length hkle, hm']
      rfl
    rw [ho] at hmo
    cases hmo

lemma matchKeyword_in_redacted (j : ℕ) (hj : j < redactedChars.length)
    (b : List Char) : matchKeyword (redactedChars.drop j ++ b) = none := by
  have hj' : j < 10 := hj
  interval_cases j <;> rfl

lemma redact_safe {o u : List Char} (hrel : RedactRel o u) :
    ∀ i, matchAt (u.drop i) = none := by
  induction hrel with
  | nil =>
    intro i
    rw [List.drop_nil]
    rfl
  | copy c orig out hm hrel' ih =>
    intro i
    cases i with
    | zero =>
      exact matchAt_none_transfer _ _ (RedactRel.copy c orig out hm hrel') hm
    | succ i' =>
      simpa using ih i'
  | redacted c orig out n hm hrel' ih =>
    intro i
    by_cases hi : i < redactedChars.length
    · rw [List.drop_append_of_le_length (le_of_lt hi)]
      unfold matchAt
      rw [matchKeyword_in_redacted i hi out]
    · have hge : redactedChars.length ≤ i := le_of_not_lt hi
      rw [List.drop_append_eq_append_drop, List.drop_eq_nil_of_le hge, List.nil_append]
      exact ih (i - redactedChars.length)

/-- C10: `_redact_secrets` leaves no substring matching the secret pattern
anywhere in its output (a match starting at any position `i` would make
`matchAt` succeed there); `_truncate` is exactly plain truncation applied
*after* redaction; truncated output never exceeds the limit plus the fixed
13-character marker; and `_save_agent_log` persists exactly
`_truncate(message, 2000)` (nothing for a falsy trace id). -/
theorem spec_C10 (message : String) (lim : ℕ) (tid : String) :
    (∀ i, matchAt ((redact_secrets message).data.drop i) = none) ∧
    truncateWithLimit message lim = truncateOnly (redact_secrets message) lim ∧
    (truncateWithLimit message lim).length ≤ lim + truncationMarker.length ∧
    save_agent_log_message (some tid) message =
      (if tid = "" then none else some (truncateWithLimit message 2000)) := by
  refine ⟨?_, rfl, ?_, rfl⟩
  · intro i
    exact redact_safe (redactRel_redactAux message.data) i
  · simp only [truncateWithLimit]
    split
    · next h => exact le_trans h (Nat.le_add_right _ _)
    · next h =>
      rw [String.length_append]
      have h1 : (String.mk ((redact_secrets message).data.take lim)).length ≤ lim := by
        show ((redact_secrets message).data.take lim).length ≤ lim
        rw [List.length_take]
        exact min_le_left _ _
      omega

end AOS
